/-
Verification of the local subscription registry of deepstream.io
(`src/services/subscription-registry/default-subscription-registry.ts`).

The registry is shallowly embedded as a pure state machine.  JavaScript
`Map`s are modelled as association lists in insertion order (`set` of an
existing key updates it in place, `set` of a fresh key appends; `delete`
filters; `get` finds the first binding) and JavaScript `Set`s as
duplicate-free lists in insertion order (`add` appends when absent,
`delete` filters).  Every observable call the registry makes on its
collaborators (socket sends, acks, cluster node / cluster-state calls,
lifecycle-listener callbacks, monitoring, close-hook (de)registration,
error logs) is recorded as an `Effect` in an output trace.  Logger
`warn`/`debug` calls are elided: they are gated on log level and carry no
registry state.  Each operation returns the new state together with the
effects it emitted, in source order.
-/
import Mathlib

/-- Connection (SocketWrapper) identity. -/
abbrev ConnId := Nat

/-- The fields of a protocol `Message` that the registry reads or writes:
`topic`, `action`, `originalAction`, `name`, `correlationId`, and the
`names` list of a `BulkSubscriptionMessage`.  Absent optional fields are
`none` / `[]`. -/
structure Message where
  topic : Nat
  action : Nat
  originalAction : Option Nat
  name : Option String
  correlationId : Option String
  names : List String
deriving DecidableEq, Repr

/-- One observable call made by the registry on a collaborator. -/
inductive Effect where
  /-- Call `socket.sendMessage(m)` (protocol replies). -/
  | sendMessage (c : ConnId) (m : Message)
  /-- Call `socket.sendAckMessage(m)`. -/
  | sendAck (c : ConnId) (m : Message)
  /-- Call `socket.sendBuiltMessage(bytes, allowBatch)`; the bytes of a message
  are modelled by the message itself (`getMessage` is pure). -/
  | sendBuilt (c : ConnId) (m : Message) (allowBatch : Bool)
  /-- Call `services.clusterNode.send(m)`. -/
  | clusterSend (m : Message)
  /-- Call `clusterSubscriptions.add(name)`. -/
  | clusterAdd (n : String)
  /-- Call `clusterSubscriptions.remove(name)`. -/
  | clusterRemove (n : String)
  /-- Call `subscriptionListener.onSubscriptionMade(name, socket)`. -/
  | onSubscriptionMade (n : String) (c : ConnId)
  /-- Call `subscriptionListener.onSubscriptionRemoved(name, socket)`. -/
  | onSubscriptionRemoved (n : String) (c : ConnId)
  /-- Call `services.monitoring.onBroadcast(m, count)`. -/
  | onBroadcast (m : Message) (count : Nat)
  /-- Call `socket.onClose(this.onSocketClose)`. -/
  | registerOnClose (c : ConnId)
  /-- Call `socket.removeOnClose(this.onSocketClose)`. -/
  | removeOnClose (c : ConnId)
  /-- Call `services.logger.error(...)`. -/
  | logError (s : String)
deriving DecidableEq, Repr

/-- JS `Map.get`: first binding of the key, if any. -/
def alistGet {α β : Type} [DecidableEq α] (l : List (α × β)) (k : α) : Option β :=
  (l.find? (fun p => p.1 = k)).map (fun p => p.2)

/-- JS `Map.has`. -/
def alistHas {α β : Type} [DecidableEq α] (l : List (α × β)) (k : α) : Bool :=
  (alistGet l k).isSome

/-- JS `Map.set`: update an existing key in place, else append. -/
def alistSet {α β : Type} [DecidableEq α] (l : List (α × β)) (k : α) (v : β) :
    List (α × β) :=
  if alistHas l k then l.map (fun p => if p.1 = k then (k, v) else p)
  else l ++ [(k, v)]

/-- JS `Map.delete`. -/
def alistDelete {α β : Type} [DecidableEq α] (l : List (α × β)) (k : α) :
    List (α × β) :=
  l.filter (fun p => p.1 ≠ k)

/-- JS `Set.add`: append when absent. -/
def listAdd {α : Type} [DecidableEq α] (l : List α) (x : α) : List α :=
  if x ∈ l then l else l ++ [x]

/-- JS `Set.delete` (membership of `x` beforehand is the returned boolean,
which callers test separately). -/
def listDelete {α : Type} [DecidableEq α] (l : List α) (x : α) : List α :=
  l.filter (fun y => y ≠ x)

/-- The mutable state of one `DefaultSubscriptionRegistry`:
`subscriptions` is the NameIndex (`private subscriptions = new Map<string,
Subscription>()`, a `Subscription` being its socket set, keyed by its
name) and `sockets` is the ConnectionIndex (`private sockets = new
Map<SocketWrapper, Set<Subscription>>()`, the held subscriptions stored by
name). -/
structure RegistryState where
  subscriptions : List (String × List ConnId)
  sockets : List (ConnId × List String)
deriving DecidableEq, Repr

/-- The state of a freshly constructed registry. -/
def emptyState : RegistryState := ⟨[], []⟩

/-- Construction-time parameters: the registry's `topic`, the four action
codes captured in `this.constants`, and whether a `subscriptionListener`
has been installed. -/
structure Ctx where
  topic : Nat
  multipleSubscriptions : Nat
  notSubscribed : Nat
  subscribeCode : Nat
  unsubscribeCode : Nat
  hasListener : Bool
deriving DecidableEq, Repr

/-- Model of `private addSocket (subscription, socket)`.  Precondition (as in the
source, where the call follows `subscription.sockets.add(socket)`): the
state already reflects the insertion of `c` into `name`'s socket set. -/
def addSocket (ctx : Ctx) (st : RegistryState) (name : String) (c : ConnId) :
    RegistryState × List Effect :=
  let held := (alistGet st.sockets c).getD []
  let e1 := if held.length = 0 then [Effect.registerOnClose c] else []
  let sockets1 := alistSet st.sockets c (listAdd held name)
  (⟨st.subscriptions, sockets1⟩,
    e1 ++ [Effect.clusterAdd name]
       ++ (if ctx.hasListener then [Effect.onSubscriptionMade name c] else []))

/-- Model of `private removeSocket (subscription, socket)`.  Precondition (as in
the source, where the call follows `subscription.sockets.delete(socket)`):
the state already reflects the deletion of `c` from `name`'s socket set,
so the subscription's current socket set is `alistGet st.subscriptions
name` (still in the map even when empty). -/
def removeSocket (ctx : Ctx) (st : RegistryState) (name : String) (c : ConnId) :
    RegistryState × List Effect :=
  let subSockets := (alistGet st.subscriptions name).getD []
  let r1 :=
    if subSockets.length = 0 then
      (alistDelete st.subscriptions name, [Effect.removeOnClose c])
    else (st.subscriptions, [])
  let e2 := (if ctx.hasListener then [Effect.onSubscriptionRemoved name c] else [])
              ++ [Effect.clusterRemove name]
  let sockets1 :=
    match alistGet st.sockets c with
    | some held => alistSet st.sockets c (listDelete held name)
    | none => st.sockets
  (⟨r1.1, sockets1⟩, r1.2 ++ e2)

/-- The shared tail of `subscribe` after the duplicate check: insert the
socket into the subscription's set (installing the subscription in the map
covers both the fresh-subscription branch and the in-place mutation of an
existing entry), run `addSocket`, and ack unless silent. -/
def subscribeAdd (ctx : Ctx) (st : RegistryState) (name : String)
    (subSockets : List ConnId) (msg : Message) (c : ConnId) (silent : Bool) :
    RegistryState × List Effect :=
  let st1 : RegistryState :=
    ⟨alistSet st.subscriptions name (listAdd subSockets c), st.sockets⟩
  let r := addSocket ctx st1 name c
  (r.1, r.2 ++ if silent then [] else [Effect.sendAck c msg])

/-- Model of `public subscribe (name, message, socket, silent?)`. -/
def subscribe (ctx : Ctx) (st : RegistryState) (name : String) (msg : Message)
    (c : ConnId) (silent : Bool) : RegistryState × List Effect :=
  let subSockets := (alistGet st.subscriptions name).getD []
  if subSockets.length = 0 then
    subscribeAdd ctx st name subSockets msg c silent
  else if c ∈ subSockets then
    (st, [Effect.sendMessage c
      ⟨ctx.topic, ctx.multipleSubscriptions, some msg.action, some name, none, []⟩])
  else
    subscribeAdd ctx st name subSockets msg c silent

/-- Model of `public unsubscribe (name, message, socket, silent?)`.  The source's
`!subscription || !subscription.sockets.delete(socket)` guard is the
absent-or-not-member test. -/
def unsubscribe (ctx : Ctx) (st : RegistryState) (name : String) (msg : Message)
    (c : ConnId) (silent : Bool) : RegistryState × List Effect :=
  match alistGet st.subscriptions name with
  | none =>
    (st, if silent then [] else
      [Effect.sendMessage c
        ⟨ctx.topic, ctx.notSubscribed, some msg.action, some name, none, []⟩])
  | some subSockets =>
    if c ∈ subSockets then
      let st1 : RegistryState :=
        ⟨alistSet st.subscriptions name (listDelete subSockets c), st.sockets⟩
      let r := removeSocket ctx st1 name c
      (r.1, r.2 ++ if silent then [] else [Effect.sendAck c msg])
    else
      (st, if silent then [] else
        [Effect.sendMessage c
          ⟨ctx.topic, ctx.notSubscribed, some msg.action, some name, none, []⟩])

/-- One iteration of the `subscribeBulk` loop: a silent `subscribe`. -/
def subscribeBulkStep (ctx : Ctx) (msg : Message) (c : ConnId)
    (acc : RegistryState × List Effect) (name : String) :
    RegistryState × List Effect :=
  let r := subscribe ctx acc.1 name msg c true
  (r.1, acc.2 ++ r.2)

/-- Model of `public subscribeBulk (message, socket, silent?)`: the indexed `for`
loop over `message.names` is a left fold of silent `subscribe`s. -/
def subscribeBulk (ctx : Ctx) (st : RegistryState) (msg : Message) (c : ConnId)
    (silent : Bool) : RegistryState × List Effect :=
  let r := msg.names.foldl (subscribeBulkStep ctx msg c) (st, ([] : List Effect))
  (r.1, r.2 ++ if silent then [] else
    [Effect.sendAck c ⟨msg.topic, msg.action, none, none, msg.correlationId, []⟩])

/-- One iteration of the `unsubscribeBulk` loop: a silent `unsubscribe`. -/
def unsubscribeBulkStep (ctx : Ctx) (msg : Message) (c : ConnId)
    (acc : RegistryState × List Effect) (name : String) :
    RegistryState × List Effect :=
  let r := unsubscribe ctx acc.1 name msg c true
  (r.1, acc.2 ++ r.2)

/-- Model of `public unsubscribeBulk (message, socket, silent?)`. -/
def unsubscribeBulk (ctx : Ctx) (st : RegistryState) (msg : Message) (c : ConnId)
    (silent : Bool) : RegistryState × List Effect :=
  let r := msg.names.foldl (unsubscribeBulkStep ctx msg c) (st, ([] : List Effect))
  (r.1, r.2 ++ if silent then [] else
    [Effect.sendAck c ⟨msg.topic, msg.action, none, none, msg.correlationId, []⟩])

/-- Model of `public sendToSubscribers (name, message, noDelay, senderSocket,
suppressRemote)`.  `noDelay` is accepted and unused, as in the source
(delegated to the connection layer). -/
def sendToSubscribers (ctx : Ctx) (st : RegistryState) (name : String)
    (msg : Message) (noDelay : Bool) (sender : Option ConnId)
    (suppressRemote : Bool) : List Effect :=
  let e1 := if sender.isSome ∧ suppressRemote = false then [Effect.clusterSend msg]
            else []
  match alistGet st.subscriptions name with
  | none => e1
  | some subscribers =>
    e1 ++ [Effect.onBroadcast msg subscribers.length]
       ++ (subscribers.filter (fun s => ¬ some s = sender)).map
            (fun s => Effect.sendBuilt s msg true)

/-- One iteration of the `onSocketClose` loop body:
`subscription.sockets.delete(socket)` followed by `removeSocket`. -/
def closeStep (ctx : Ctx) (c : ConnId) (acc : RegistryState × List Effect)
    (name : String) : RegistryState × List Effect :=
  let st0 := acc.1
  let st1 : RegistryState :=
    match alistGet st0.subscriptions name with
    | some l => ⟨alistSet st0.subscriptions name (listDelete l c), st0.sockets⟩
    | none => st0
  let r := removeSocket ctx st1 name c
  (r.1, acc.2 ++ r.2)

/-- Model of `private onSocketClose (socket)`: the registered close hook.  The JS
`for..of` over the connection's live held set, whose current element is
deleted by each `removeSocket`, visits exactly the elements of the set at
loop entry, so it is folded over that snapshot. -/
def onSocketClose (ctx : Ctx) (st : RegistryState) (c : ConnId) :
    RegistryState × List Effect :=
  match alistGet st.sockets c with
  | none => (st, [Effect.logError "A socket has an illegal registered close callback"])
  | some held => held.foldl (closeStep ctx c) (st, [])

/-- Model of `public getLocalSubscribers (name)`: the subscription's socket set, or
a fresh empty set when the name is unknown. -/
def getLocalSubscribers (st : RegistryState) (name : String) : List ConnId :=
  match alistGet st.subscriptions name with
  | some subSockets => subSockets
  | none => []

/-- Model of `public hasLocalSubscribers (name)`: `this.subscriptions.has(name)`. -/
def hasLocalSubscribers (st : RegistryState) (name : String) : Bool :=
  alistHas st.subscriptions name

/-- The `this.constants` object as built by the constructor: the four
canonical slots in declaration order, values from the topic's action
namespace. -/
def initialConstants (ctx : Ctx) : List (String × Nat) :=
  [("MULTIPLE_SUBSCRIPTIONS", ctx.multipleSubscriptions),
   ("NOT_SUBSCRIBED", ctx.notSubscribed),
   ("SUBSCRIBE", ctx.subscribeCode),
   ("UNSUBSCRIBE", ctx.unsubscribeCode)]

/-- JS `String.prototype.toUpperCase` (over the ASCII names used for the
action slots): uppercase every character. -/
def jsToUpper (s : String) : String :=
  ⟨s.data.map Char.toUpper⟩

/-- Model of `public setAction (name, value)`:
`(this.constants as any)[name.toUpperCase()] = value` — a JS property
assignment, which rebinds an existing key and adds a missing one. -/
def setAction (constants : List (String × Nat)) (name : String) (value : Nat) :
    List (String × Nat) :=
  alistSet constants (jsToUpper name) value

/-- The registry's public mutating operations, for reachability. -/
inductive Op where
  | sub (name : String) (msg : Message) (c : ConnId) (silent : Bool)
  | unsub (name : String) (msg : Message) (c : ConnId) (silent : Bool)
  | subBulk (msg : Message) (c : ConnId) (silent : Bool)
  | unsubBulk (msg : Message) (c : ConnId) (silent : Bool)
  | close (c : ConnId)
deriving DecidableEq, Repr

/-- Apply one operation. -/
def applyOp (ctx : Ctx) (st : RegistryState) : Op → RegistryState × List Effect
  | Op.sub name msg c silent => subscribe ctx st name msg c silent
  | Op.unsub name msg c silent => unsubscribe ctx st name msg c silent
  | Op.subBulk msg c silent => subscribeBulk ctx st msg c silent
  | Op.unsubBulk msg c silent => unsubscribeBulk ctx st msg c silent
  | Op.close c => onSocketClose ctx st c

/-- Run a sequence of operations, discarding effects. -/
def run (ctx : Ctx) (st : RegistryState) (ops : List Op) : RegistryState :=
  ops.foldl (fun s op => (applyOp ctx s op).1) st

/-! ### Association-list and set lemmas -/

/-- A key absent from the map has no binding in the list. -/
theorem alistHas_false_keys {α β : Type} [DecidableEq α] {l : List (α × β)} {k : α}
    (h : alistHas l k = false) : ∀ p ∈ l, p.1 ≠ k := by
  intro p hp
  unfold alistHas alistGet at h
  rcases hf : l.find? (fun p => decide (p.1 = k)) with _ | q
  · have := List.find?_eq_none.mp hf p hp
    simpa using this
  · rw [hf] at h
    simp at h

theorem alistGet_map_replace {α β : Type} [DecidableEq α] (l : List (α × β))
    (k : α) (v : β) (h : alistHas l k = true) :
    alistGet (l.map (fun p => if p.1 = k then (k, v) else p)) k = some v := by
  induction l with
  | nil => simp [alistHas, alistGet] at h
  | cons p l ih =>
    by_cases hp : p.1 = k
    · simp [alistGet, List.find?, hp]
    · have h' : alistHas l k = true := by
        simpa [alistHas, alistGet, List.find?, hp] using h
      simpa [alistGet, List.find?, hp] using ih h'

theorem alistGet_append_single {α β : Type} [DecidableEq α] (l : List (α × β))
    (k : α) (v : β) (h : alistHas l k = false) :
    alistGet (l ++ [(k, v)]) k = some v := by
  induction l with
  | nil => simp [alistGet, List.find?]
  | cons p l ih =>
    have hp : p.1 ≠ k := alistHas_false_keys h p (by simp)
    have h' : alistHas l k = false := by
      unfold alistHas alistGet at h ⊢
      simpa [List.find?, hp] using h
    simpa [alistGet, List.find?, hp] using ih h'

/-- After `Map.set` the key reads back as the new value. -/
theorem alistGet_set_self {α β : Type} [DecidableEq α] (l : List (α × β))
    (k : α) (v : β) : alistGet (alistSet l k v) k = some v := by
  unfold alistSet
  by_cases h : alistHas l k = true
  · simpa [h] using alistGet_map_replace l k v h
  · have h' : alistHas l k = false := by simpa using h
    simpa [h'] using alistGet_append_single l k v h'

/-- Every binding after `Map.set` is an untouched other-key binding or the
new one. -/
theorem mem_alistSet {α β : Type} [DecidableEq α] {l : List (α × β)}
    {k : α} {v : β} {p : α × β} (hp : p ∈ alistSet l k v) :
    (p ∈ l ∧ p.1 ≠ k) ∨ p = (k, v) := by
  unfold alistSet at hp
  by_cases h : alistHas l k = true
  · rw [if_pos h] at hp
    rcases List.mem_map.mp hp with ⟨q, hq, hqe⟩
    by_cases hk : q.1 = k
    · right
      rw [if_pos hk] at hqe
      exact hqe.symm
    · left
      rw [if_neg hk] at hqe
      exact ⟨hqe ▸ hq, hqe ▸ hk⟩
  · have h' : alistHas l k = false := by simpa using h
    rw [if_neg h] at hp
    rcases List.mem_append.mp hp with hl | hr
    · exact Or.inl ⟨hl, alistHas_false_keys h' p hl⟩
    · right
      simpa using hr

/-- Every binding after `Map.delete` is an untouched other-key binding. -/
theorem mem_alistDelete {α β : Type} [DecidableEq α] {l : List (α × β)}
    {k : α} {p : α × β} (hp : p ∈ alistDelete l k) : p ∈ l ∧ p.1 ≠ k := by
  unfold alistDelete at hp
  have := List.mem_filter.mp hp
  simpa using this

/-- A successful `Map.get` returns a binding of the map. -/
theorem alistGet_mem {α β : Type} [DecidableEq α] {l : List (α × β)}
    {k : α} {v : β} (h : alistGet l k = some v) : (k, v) ∈ l := by
  unfold alistGet at h
  rcases hf : l.find? (fun p => decide (p.1 = k)) with _ | q
  · rw [hf] at h
    simp at h
  · rw [hf] at h
    have hq : q ∈ l := List.mem_of_find?_eq_some hf
    have hk : q.1 = k := by simpa using List.find?_some hf
    have hv : q.2 = v := by simpa using h
    have : q = (k, v) := by
      cases q
      simp_all
    exact this ▸ hq

/-- The result of `Set.add` is never the empty set. -/
theorem listAdd_ne_nil {α : Type} [DecidableEq α] (l : List α) (x : α) :
    listAdd l x ≠ [] := by
  unfold listAdd
  by_cases h : x ∈ l
  · rw [if_pos h]
    exact List.ne_nil_of_mem h
  · rw [if_neg h]
    simp

/-- The added element is a member after `Set.add`. -/
theorem mem_listAdd_self {α : Type} [DecidableEq α] (l : List α) (x : α) :
    x ∈ listAdd l x := by
  unfold listAdd
  by_cases h : x ∈ l
  · rwa [if_pos h]
  · rw [if_neg h]
    simp

/-! ### The NameIndex never stores an empty socket set (claim C9) -/

/-- Invariant: every `Subscription` in the NameIndex has a non-empty
socket set. -/
def nonEmptyVals (st : RegistryState) : Prop :=
  ∀ p ∈ st.subscriptions, p.2 ≠ []

/-- Running `removeSocket` after deleting `c` from `name`'s (present) socket set
preserves the invariant: an emptied set is removed from the map, a
non-empty one stays. -/
theorem nonEmptyVals_removeSocket_setDelete (ctx : Ctx) {st : RegistryState}
    (H : nonEmptyVals st) (name : String) (c : ConnId) (l : List ConnId) :
    nonEmptyVals
      (removeSocket ctx ⟨alistSet st.subscriptions name (listDelete l c), st.sockets⟩
        name c).1 := by
  intro p hp
  have hget :
      alistGet (alistSet st.subscriptions name (listDelete l c)) name =
        some (listDelete l c) := alistGet_set_self _ _ _
  unfold removeSocket at hp
  simp only [hget] at hp
  by_cases hv : (listDelete l c).length = 0
  · simp only [Option.getD_some, hv, if_pos rfl, reduceIte] at hp
    rcases mem_alistDelete hp with ⟨hp1, hp2⟩
    rcases mem_alistSet hp1 with ⟨hmem, _⟩ | heq
    · exact H p hmem
    · exact absurd (by rw [heq]) hp2
  · simp only [Option.getD_some, hv, reduceIte] at hp
    rcases mem_alistSet hp with ⟨hmem, _⟩ | heq
    · exact H p hmem
    · rw [heq]
      simpa [List.length_eq_zero] using hv

/-- Running `removeSocket` on an absent name preserves the invariant. -/
theorem nonEmptyVals_removeSocket_none (ctx : Ctx) {st : RegistryState}
    (H : nonEmptyVals st) {name : String} (c : ConnId)
    (hget : alistGet st.subscriptions name = none) :
    nonEmptyVals (removeSocket ctx st name c).1 := by
  intro p hp
  unfold removeSocket at hp
  simp only [hget, Option.getD_none, List.length_nil, if_pos rfl, reduceIte] at hp
  exact H p (mem_alistDelete hp).1

/-- The insertion path of `subscribe` preserves the invariant: it stores
`subSockets` with `c` added, which is never empty. -/
theorem nonEmptyVals_subscribeAdd (ctx : Ctx) {st : RegistryState}
    (H : nonEmptyVals st) (name : String) (subSockets : List ConnId)
    (msg : Message) (c : ConnId) (silent : Bool) :
    nonEmptyVals (subscribeAdd ctx st name subSockets msg c silent).1 := by
  intro p hp
  unfold subscribeAdd addSocket at hp
  simp only at hp
  rcases mem_alistSet hp with ⟨hmem, _⟩ | heq
  · exact H p hmem
  · rw [heq]
    exact listAdd_ne_nil _ _

/-- Operation `subscribe` preserves the invariant. -/
theorem nonEmptyVals_subscribe (ctx : Ctx) {st : RegistryState}
    (H : nonEmptyVals st) (name : String) (msg : Message) (c : ConnId)
    (silent : Bool) : nonEmptyVals (subscribe ctx st name msg c silent).1 := by
  unfold subscribe
  by_cases h0 : ((alistGet st.subscriptions name).getD []).length = 0
  · simpa [h0] using nonEmptyVals_subscribeAdd ctx H name _ msg c silent
  · by_cases hc : c ∈ (alistGet st.subscriptions name).getD []
    · simpa [h0, hc] using H
    · simpa [h0, hc] using nonEmptyVals_subscribeAdd ctx H name _ msg c silent

/-- Operation `unsubscribe` preserves the invariant. -/
theorem nonEmptyVals_unsubscribe (ctx : Ctx) {st : RegistryState}
    (H : nonEmptyVals st) (name : String) (msg : Message) (c : ConnId)
    (silent : Bool) : nonEmptyVals (unsubscribe ctx st name msg c silent).1 := by
  unfold unsubscribe
  rcases hget : alistGet st.subscriptions name with _ | subSockets
  · simpa using H
  · by_cases hc : c ∈ subSockets
    · simpa [hc] using
        nonEmptyVals_removeSocket_setDelete ctx H name c subSockets
    · simpa [hc] using H

/-- One close-loop iteration preserves the invariant. -/
theorem nonEmptyVals_closeStep (ctx : Ctx) (c : ConnId)
    {acc : RegistryState × List Effect} (H : nonEmptyVals acc.1)
    (name : String) : nonEmptyVals (closeStep ctx c acc name).1 := by
  unfold closeStep
  rcases hget : alistGet acc.1.subscriptions name with _ | l
  · simp only [hget]
    intro p hp
    exact nonEmptyVals_removeSocket_none ctx H c hget p (by simpa using hp)
  · simp only [hget]
    intro p hp
    exact nonEmptyVals_removeSocket_setDelete ctx H name c l p (by simpa using hp)

/-- Left folds preserve any state property their step preserves. -/
theorem foldlPreserve {σ γ : Type} (P : σ → Prop) (f : σ → γ → σ)
    (hf : ∀ s x, P s → P (f s x)) :
    ∀ (l : List γ) (s : σ), P s → P (l.foldl f s) := by
  intro l
  induction l with
  | nil => intro s hs; simpa using hs
  | cons x l ih =>
    intro s hs
    simpa using ih (f s x) (hf s x hs)

/-- Operation `subscribeBulk` preserves the invariant. -/
theorem nonEmptyVals_subscribeBulk (ctx : Ctx) {st : RegistryState}
    (H : nonEmptyVals st) (msg : Message) (c : ConnId) (silent : Bool) :
    nonEmptyVals (subscribeBulk ctx st msg c silent).1 := by
  unfold subscribeBulk
  simp only
  exact foldlPreserve (fun (s : RegistryState × List Effect) => nonEmptyVals s.1)
    (subscribeBulkStep ctx msg c)
    (fun s n hs => nonEmptyVals_subscribe ctx hs n msg c true)
    msg.names (st, []) H

/-- Operation `unsubscribeBulk` preserves the invariant. -/
theorem nonEmptyVals_unsubscribeBulk (ctx : Ctx) {st : RegistryState}
    (H : nonEmptyVals st) (msg : Message) (c : ConnId) (silent : Bool) :
    nonEmptyVals (unsubscribeBulk ctx st msg c silent).1 := by
  unfold unsubscribeBulk
  simp only
  exact foldlPreserve (fun (s : RegistryState × List Effect) => nonEmptyVals s.1)
    (unsubscribeBulkStep ctx msg c)
    (fun s n hs => nonEmptyVals_unsubscribe ctx hs n msg c true)
    msg.names (st, []) H

/-- Operation `onSocketClose` preserves the invariant. -/
theorem nonEmptyVals_onSocketClose (ctx : Ctx) {st : RegistryState}
    (H : nonEmptyVals st) (c : ConnId) :
    nonEmptyVals (onSocketClose ctx st c).1 := by
  unfold onSocketClose
  rcases hget : alistGet st.sockets c with _ | held
  · simpa using H
  · exact foldlPreserve (fun (s : RegistryState × List Effect) => nonEmptyVals s.1) _
      (fun s n hs => nonEmptyVals_closeStep ctx c hs n) held (st, []) H

/-- Every public mutating operation preserves the invariant. -/
theorem nonEmptyVals_applyOp (ctx : Ctx) {st : RegistryState}
    (H : nonEmptyVals st) (op : Op) : nonEmptyVals (applyOp ctx st op).1 := by
  cases op with
  | sub name msg c silent => exact nonEmptyVals_subscribe ctx H name msg c silent
  | unsub name msg c silent => exact nonEmptyVals_unsubscribe ctx H name msg c silent
  | subBulk msg c silent => exact nonEmptyVals_subscribeBulk ctx H msg c silent
  | unsubBulk msg c silent => exact nonEmptyVals_unsubscribeBulk ctx H msg c silent
  | close c => exact nonEmptyVals_onSocketClose ctx H c

/-- Every state reachable from the empty registry satisfies the
invariant. -/
theorem nonEmptyVals_run (ctx : Ctx) (ops : List Op) :
    nonEmptyVals (run ctx emptyState ops) := by
  unfold run
  exact foldlPreserve nonEmptyVals _
    (fun s op hs => nonEmptyVals_applyOp ctx hs op) ops emptyState
    (by intro p hp; simp [emptyState] at hp)

/-! ### Concrete fixtures (an EVENT-like registry with a listener) -/

/-- A sample registry context. -/
def ctx0 : Ctx := ⟨4, 34, 35, 32, 33, true⟩

/-- A sample subscribe request message. -/
def m0 : Message := ⟨4, 32, none, some "a", none, []⟩

/-- State after connection `0` subscribed to `"a"`. -/
def stA : RegistryState := (subscribe ctx0 emptyState "a" m0 0 false).1

/-- State after connection `0` subscribed to `"a"` and `"b"`. -/
def stAB : RegistryState := (subscribe ctx0 stA "b" m0 0 false).1

/-- Membership: `c` is in `name`'s socket set after any `subscribe(name, msg, c)`. -/
theorem mem_subscribe_self (ctx : Ctx) (st : RegistryState) (name : String)
    (msg : Message) (c : ConnId) (silent : Bool) :
    c ∈ (alistGet (subscribe ctx st name msg c silent).1.subscriptions name).getD [] := by
  by_cases h0 : ((alistGet st.subscriptions name).getD []).length = 0
  · simp only [subscribe, h0, if_true, subscribeAdd, addSocket, alistGet_set_self,
      Option.getD_some]
    exact mem_listAdd_self _ _
  · by_cases hc : c ∈ (alistGet st.subscriptions name).getD []
    · simp [subscribe, h0, hc]
    · simp only [subscribe, h0, if_false, hc, subscribeAdd, addSocket,
        alistGet_set_self, Option.getD_some, reduceIte]
      exact mem_listAdd_self _ _

/-- C4: duplicate subscribe is idempotent and reported.  After
`subscribe(N,m,c)`, a second `subscribe(N,m,c)` returns the state of the
first unchanged (NameIndex, ConnectionIndex, and hence also the cluster
`add` calls, of which the second call makes none), and its only effect is
one MULTIPLE_SUBSCRIPTIONS message to `c` carrying the registry topic, the
MULTIPLE_SUBSCRIPTIONS action, `originalAction = m.action` and the name;
in particular no ACK is sent for the second call. -/
theorem C4_duplicate_subscribe_idempotent (ctx : Ctx) (st : RegistryState)
    (name : String) (msg : Message) (c : ConnId) (s1 s2 : Bool) :
    subscribe ctx (subscribe ctx st name msg c s1).1 name msg c s2 =
      ((subscribe ctx st name msg c s1).1,
       [Effect.sendMessage c
         ⟨ctx.topic, ctx.multipleSubscriptions, some msg.action, some name, none, []⟩]) := by
  have hc := mem_subscribe_self ctx st name msg c s1
  generalize hst1 : (subscribe ctx st name msg c s1).1 = st1 at hc ⊢
  have h0 : (alistGet st1.subscriptions name).getD [] ≠ [] :=
    List.ne_nil_of_mem hc
  simp [subscribe, h0, hc]

/-- C1: refuted on the code.  Connection `0` subscribes to `"a"` and
`"b"`; the explicit `unsubscribe("a", m0, 0)` still leaves `0` holding
`"b"`, yet the registry calls `removeOnClose` on the connection, because
`removeSocket` keys the hook removal on the *name's* socket set becoming
empty rather than on the connection's last subscription. -/
theorem C1_removeOnClose_despite_remaining_subscription :
    Effect.removeOnClose 0 ∈ (unsubscribe ctx0 stAB "a" m0 0 false).2 ∧
    alistGet (unsubscribe ctx0 stAB "a" m0 0 false).1.sockets 0 = some ["b"] := by
  decide

/-- C2: the first half holds on the failing input (closing a connection
holding the two subscriptions `"a"`, `"b"` fires `onSubscriptionRemoved`
exactly once per held name), but the ConnectionIndex entry for the
connection is *not* removed: `onSocketClose` leaves `sockets[0]` bound to
the empty set, because nothing ever deletes from the `sockets` map. -/
theorem C2_onSocketClose_keeps_connection_entry :
    (onSocketClose ctx0 stAB 0).2.count (Effect.onSubscriptionRemoved "a" 0) = 1 ∧
    (onSocketClose ctx0 stAB 0).2.count (Effect.onSubscriptionRemoved "b" 0) = 1 ∧
    alistGet (onSocketClose ctx0 stAB 0).1.sockets 0 = some [] := by
  decide

/-- C3: refuted on the code.  `subscribe("n", m0, 0)` then
`unsubscribe("n", m0, 0)` from the empty registry does remove the name
from the NameIndex and does remove the close hook, but the resulting state
is not the empty state: the ConnectionIndex keeps the entry `0 ↦ ∅`. -/
theorem C3_round_trip_keeps_connection_entry :
    run ctx0 emptyState [Op.sub "n" m0 0 false, Op.unsub "n" m0 0 false] =
      ⟨[], [(0, [])]⟩ ∧
    Effect.removeOnClose 0 ∈
      (unsubscribe ctx0 (subscribe ctx0 emptyState "n" m0 0 false).1 "n" m0 0 false).2 ∧
    run ctx0 emptyState [Op.sub "n" m0 0 false, Op.unsub "n" m0 0 false] ≠ emptyState := by
  decide

/-- C5: fanout forwarding and sender exclusion.  `sendToSubscribers`
forwards the message to the cluster node exactly when the sender is
non-null and `suppressRemote` is false (so a null, bus-originated sender
never re-forwards); when a local subscription exists it reports
`onBroadcast` with the full subscriber count (sender included) and sends
the built bytes to every subscriber except the sender, and to no socket
equal to the sender. -/
theorem C5_fanout_excludes_sender (ctx : Ctx) (st : RegistryState)
    (name : String) (msg : Message) (noDelay : Bool) (sender : Option ConnId)
    (suppressRemote : Bool) :
    (Effect.clusterSend msg ∈
        sendToSubscribers ctx st name msg noDelay sender suppressRemote ↔
      sender.isSome = true ∧ suppressRemote = false) ∧
    (∀ subs, alistGet st.subscriptions name = some subs →
      Effect.onBroadcast msg subs.length ∈
          sendToSubscribers ctx st name msg noDelay sender suppressRemote ∧
        (∀ s ∈ subs, ¬ some s = sender →
          Effect.sendBuilt s msg true ∈
            sendToSubscribers ctx st name msg noDelay sender suppressRemote) ∧
        (∀ (s : ConnId) (m : Message) (b : Bool), some s = sender →
          Effect.sendBuilt s m b ∉
            sendToSubscribers ctx st name msg noDelay sender suppressRemote)) := by
  unfold sendToSubscribers
  rcases hget : alistGet st.subscriptions name with _ | subs
  · constructor
    · by_cases hcond : sender.isSome = true ∧ suppressRemote = false
      · simp [hcond]
      · simp [hcond]
    · intro subs h
      exact absurd h (by simp)
  · constructor
    · by_cases hcond : sender.isSome = true ∧ suppressRemote = false
      · simp [hcond]
      · simp [hcond]
    · intro subs' h
      have hsubs : subs' = subs := by
        injection h with h'
        exact h'.symm
      subst hsubs
      refine ⟨by simp, ?_, ?_⟩
      · intro s hs hsend
        apply List.mem_append.mpr
        right
        apply List.mem_map.mpr
        exact ⟨s, List.mem_filter.mpr ⟨hs, by simpa using hsend⟩, rfl⟩
      · intro s m b hsend hmem
        rcases List.mem_append.mp hmem with hl | hr
        · rcases List.mem_append.mp hl with h1 | h2
          · by_cases hcond : sender.isSome = true ∧ suppressRemote = false
            · simp [hcond] at h1
            · simp [hcond] at h1
          · simp at h2
        · rcases List.mem_map.mp hr with ⟨x, hx, hxe⟩
          have hxs : x = s := by
            simpa using congrArg (fun e => match e with
              | Effect.sendBuilt c _ _ => c
              | _ => 0) hxe
          subst hxs
          have := (List.mem_filter.mp hx).2
          simp [hsend] at this

/-- State with connections `1`, `2`, `3` subscribed to `"r"`. -/
def st3 : RegistryState :=
  run ctx0 emptyState [Op.sub "r" m0 1 false, Op.sub "r" m0 2 false, Op.sub "r" m0 3 false]

/-- Witness for C5 at a concrete three-subscriber state with sender `2`. -/
theorem C5_fanout_excludes_sender_witness :
    Effect.clusterSend m0 ∈ sendToSubscribers ctx0 st3 "r" m0 false (some 2) false ∧
    Effect.onBroadcast m0 3 ∈ sendToSubscribers ctx0 st3 "r" m0 false (some 2) false ∧
    Effect.sendBuilt 1 m0 true ∈ sendToSubscribers ctx0 st3 "r" m0 false (some 2) false ∧
    Effect.sendBuilt 2 m0 true ∉ sendToSubscribers ctx0 st3 "r" m0 false (some 2) false := by
  have h := C5_fanout_excludes_sender ctx0 st3 "r" m0 false (some 2) false
  have h2 := h.2 [1, 2, 3] (by decide)
  exact ⟨h.1.mpr (by decide), h2.1, h2.2.1 1 (by decide) (by decide),
    h2.2.2 2 m0 true rfl⟩

/-- C6 as stated is refuted on the code: `unsubscribeBulk` of a name the
connection is not subscribed to emits no NOT_SUBSCRIBED reply at all — the
inner `unsubscribe` runs with `silent = true`, which suppresses it; the
only effect is the bulk ACK. -/
theorem C6_unsubscribeBulk_no_not_subscribed_reply :
    (unsubscribeBulk ctx0 emptyState ⟨4, 33, none, none, some "k", ["y"]⟩ 0 false).2 =
      [Effect.sendAck 0 ⟨4, 33, none, none, some "k", []⟩] := by
  decide

/-- C6 amended: during `subscribeBulk` a duplicate name still causes a
MULTIPLE_SUBSCRIPTIONS reply to the connection (that reply is emitted
regardless of `silent`), while during `unsubscribeBulk` a not-subscribed
name causes no NOT_SUBSCRIBED reply (the inner calls run `silent = true`,
which suppresses it); in both cases the bulk ACK is still sent when the
bulk-level `silent` is false. -/
theorem C6_amended_bulk_replies (ctx : Ctx) (st st2 : RegistryState)
    (n n2 : String) (msg msg2 : Message) (c c2 : ConnId)
    (h1 : c ∈ (alistGet st.subscriptions n).getD [])
    (h2 : msg.names = [n])
    (h3 : alistGet st2.subscriptions n2 = none)
    (h4 : msg2.names = [n2]) :
    (subscribeBulk ctx st msg c false).2 =
      [Effect.sendMessage c
         ⟨ctx.topic, ctx.multipleSubscriptions, some msg.action, some n, none, []⟩,
       Effect.sendAck c ⟨msg.topic, msg.action, none, none, msg.correlationId, []⟩] ∧
    (unsubscribeBulk ctx st2 msg2 c2 false).2 =
      [Effect.sendAck c2 ⟨msg2.topic, msg2.action, none, none, msg2.correlationId, []⟩] := by
  have h0 : (alistGet st.subscriptions n).getD [] ≠ [] := List.ne_nil_of_mem h1
  constructor
  · simp [subscribeBulk, subscribeBulkStep, h2, subscribe, h0, h1]
  · simp [unsubscribeBulk, unsubscribeBulkStep, h4, unsubscribe, h3]

/-- Witness for C6's amended statement: connection `0` already subscribed
to `"a"` gets a MULTIPLE_SUBSCRIPTIONS reply plus the bulk ACK from
`subscribeBulk(["a"])`, and `unsubscribeBulk(["y"])` on the empty registry
emits only the bulk ACK. -/
theorem C6_amended_bulk_replies_witness :
    (subscribeBulk ctx0 stA ⟨4, 32, none, none, some "q", ["a"]⟩ 0 false).2 =
      [Effect.sendMessage 0 ⟨4, 34, some 32, some "a", none, []⟩,
       Effect.sendAck 0 ⟨4, 32, none, none, some "q", []⟩] ∧
    (unsubscribeBulk ctx0 emptyState ⟨4, 33, none, none, some "k", ["y"]⟩ 0 false).2 =
      [Effect.sendAck 0 ⟨4, 33, none, none, some "k", []⟩] :=
  C6_amended_bulk_replies ctx0 stA emptyState "a" "y"
    ⟨4, 32, none, none, some "q", ["a"]⟩ ⟨4, 33, none, none, some "k", ["y"]⟩ 0 0
    (by decide) rfl (by decide) rfl

/-- Recogniser for `sendAckMessage` effects. -/
def isAckEffect : Effect → Bool
  | Effect.sendAck _ _ => true
  | _ => false

/-- A silent `subscribe` never acks: its possible effects are the
close-hook registration, cluster add, listener callback, or the duplicate
reply. -/
theorem subscribe_silent_no_ack (ctx : Ctx) (st : RegistryState) (name : String)
    (msg : Message) (c : ConnId) :
    (subscribe ctx st name msg c true).2.filter isAckEffect = [] := by
  simp only [subscribe, subscribeAdd, addSocket]
  split_ifs <;> simp [isAckEffect]

/-- The `subscribeBulk` loop contributes no ack effects and threads the
state through silent `subscribe`s in list order. -/
theorem subscribeBulk_fold (ctx : Ctx) (msg : Message) (c : ConnId) :
    ∀ (names : List String) (st : RegistryState) (acc : List Effect),
      ((names.foldl (subscribeBulkStep ctx msg c) (st, acc)).2).filter isAckEffect =
          acc.filter isAckEffect ∧
      (names.foldl (subscribeBulkStep ctx msg c) (st, acc)).1 =
          names.foldl (fun s n => (subscribe ctx s n msg c true).1) st := by
  intro names
  induction names with
  | nil => intro st acc; exact ⟨rfl, rfl⟩
  | cons n names ih =>
    intro st acc
    simp only [List.foldl_cons]
    have hstep : subscribeBulkStep ctx msg c (st, acc) n =
        ((subscribe ctx st n msg c true).1,
          acc ++ (subscribe ctx st n msg c true).2) := rfl
    rw [hstep]
    rcases ih (subscribe ctx st n msg c true).1
      (acc ++ (subscribe ctx st n msg c true).2) with ⟨ha, hb⟩
    refine ⟨?_, hb⟩
    rw [ha, List.filter_append, subscribe_silent_no_ack, List.append_nil]

/-- C7: `subscribeBulk` runs `subscribe` with `silent = true` on each name
of the bulk message in order, and the only ACK among its effects is the
single bulk ACK to the connection — carrying the bulk message's topic,
action and correlationId — present exactly when the outer `silent` flag is
false. -/
theorem C7_subscribeBulk_single_ack (ctx : Ctx) (st : RegistryState)
    (msg : Message) (c : ConnId) (silent : Bool) :
    (subscribeBulk ctx st msg c silent).2.filter isAckEffect =
      (if silent then [] else
        [Effect.sendAck c ⟨msg.topic, msg.action, none, none, msg.correlationId, []⟩]) ∧
    (subscribeBulk ctx st msg c silent).1 =
      msg.names.foldl (fun s n => (subscribe ctx s n msg c true).1) st := by
  have h := subscribeBulk_fold ctx msg c msg.names st []
  constructor
  · simp only [subscribeBulk]
    rw [List.filter_append, h.1]
    cases silent <;> simp [isAckEffect]
  · simp only [subscribeBulk]
    exact h.2

/-- C8 is refuted on the code: `setAction("custom", 99)` is not rejected —
the constants table silently gains the new key `"CUSTOM"`, growing from
the four canonical slots to five. -/
theorem C8_setAction_adds_unknown_key :
    alistGet (setAction (initialConstants ctx0) "custom" 99) "CUSTOM" = some 99 ∧
    (initialConstants ctx0).length = 4 ∧
    (setAction (initialConstants ctx0) "custom" 99).length = 5 := by
  decide

/-- C8 amended: `setAction` stores `value` under the upper-cased name
unconditionally — a canonical slot name rebinds that slot, while a
non-canonical name is not rejected: the table gains a new trailing key
bound to `value`. -/
theorem C8_amended_setAction_upserts (tbl tbl2 : List (String × Nat))
    (name name2 : String) (value value2 : Nat)
    (h : alistHas tbl (jsToUpper name) = false) :
    setAction tbl name value = tbl ++ [(jsToUpper name, value)] ∧
    alistGet (setAction tbl2 name2 value2) (jsToUpper name2) = some value2 := by
  constructor
  · unfold setAction alistSet
    rw [if_neg (by simp [h])]
  · exact alistGet_set_self _ _ _

/-- Witness for C8's amended statement on the canonical table. -/
theorem C8_amended_setAction_upserts_witness :
    setAction (initialConstants ctx0) "custom" 99 =
      initialConstants ctx0 ++ [("CUSTOM", 99)] ∧
    alistGet (setAction (initialConstants ctx0) "subscribe" 77) "SUBSCRIBE" =
      some 77 := by
  have h := C8_amended_setAction_upserts (initialConstants ctx0)
    (initialConstants ctx0) "custom" "subscribe" 99 77 (by decide)
  exact ⟨by rw [h.1]; decide, by
    have := h.2
    rwa [show jsToUpper "subscribe" = "SUBSCRIBE" by decide] at this⟩

/-- C10: for a name with no NameIndex entry, `getLocalSubscribers` returns
the empty set — the function is total into sets and never returns a
null-like value, despite its doc comment. -/
theorem C10_getLocalSubscribers_total (st : RegistryState) (name : String)
    (h : hasLocalSubscribers st name = false) :
    getLocalSubscribers st name = [] := by
  unfold hasLocalSubscribers alistHas at h
  unfold getLocalSubscribers
  rcases hg : alistGet st.subscriptions name with _ | v
  · rfl
  · rw [hg] at h
    simp at h

/-- Witness for C10 at an unknown name. -/
theorem C10_getLocalSubscribers_total_witness :
    hasLocalSubscribers stAB "z" = false ∧ getLocalSubscribers stAB "z" = [] :=
  ⟨by decide, C10_getLocalSubscribers_total stAB "z" (by decide)⟩

/-- C9: in every registry state reachable from the empty registry by any
sequence of `subscribe`, `unsubscribe`, `subscribeBulk`, `unsubscribeBulk`
and `onSocketClose` operations, no NameIndex entry has an empty socket
set; consequently `hasLocalSubscribers(name)` is true exactly when
`getLocalSubscribers(name)` is a non-empty set. -/
theorem C9_reachable_states_no_empty_entry (ctx : Ctx) (ops : List Op) :
    (∀ p ∈ (run ctx emptyState ops).subscriptions, p.2 ≠ []) ∧
    ∀ name, hasLocalSubscribers (run ctx emptyState ops) name = true ↔
      getLocalSubscribers (run ctx emptyState ops) name ≠ [] := by
  have H := nonEmptyVals_run ctx ops
  refine ⟨H, ?_⟩
  intro name
  unfold hasLocalSubscribers alistHas getLocalSubscribers
  rcases hg : alistGet (run ctx emptyState ops).subscriptions name with _ | v
  · simp
  · simp only [Option.isSome_some, true_iff]
    exact H _ (alistGet_mem hg)

/-- Witness for C9 at a concrete operation sequence. -/
theorem C9_reachable_states_no_empty_entry_witness :
    hasLocalSubscribers
        (run ctx0 emptyState
          [Op.sub "a" m0 0 false, Op.unsub "a" m0 0 false, Op.sub "r" m0 1 false])
        "r" = true ↔
      getLocalSubscribers
        (run ctx0 emptyState
          [Op.sub "a" m0 0 false, Op.unsub "a" m0 0 false, Op.sub "r" m0 1 false])
        "r" ≠ [] :=
  (C9_reachable_states_no_empty_entry ctx0
    [Op.sub "a" m0 0 false, Op.unsub "a" m0 0 false, Op.sub "r" m0 1 false]).2 "r"
